import Mathlib

/-!
Shallow embedding of the screen-coach frame preprocessing and
change-detection pipeline (src/screen_coach/utils.py and
src/screen_coach/main.py), together with theorems that settle the
specification claims about it.

Modelling conventions:
* machine integers are `Nat`/`Int`; pixel channel values are `Nat`
  (valid bitmaps keep them below 256);
* a bitmap is its dimensions together with a pixel-lookup function;
* fallible Python code (raised exceptions) is modelled with
  `Except`/`Option`;
* external collaborators (the PIL resampler, the PIL byte encoders,
  the PIL Gaussian blur, the SHA1 digest, the screen grabber, the
  window classifier and the vision model) are abstract parameters:
  only the repository's own logic is given concretely.
-/

/-- A pixel is an RGB triple of channel intensities. -/
abbrev Pixel := ℕ × ℕ × ℕ

/-- Channel selector: channel 0 is red, 1 is green, anything else blue.
(PIL histograms are laid out channel-major R, G, B.) -/
def Pixel.channel (p : Pixel) (c : ℕ) : ℕ :=
  if c = 0 then p.1 else if c = 1 then p.2.1 else p.2.2

/-- A bitmap: a width, a height and a pixel lookup function.  Values of
`pix` outside the `width × height` grid are irrelevant junk of the
model. -/
structure Bitmap where
  width : ℕ
  height : ℕ
  pix : ℕ → ℕ → Pixel

/-- An 8-bit RGB bitmap: every in-bounds channel sample is below 256. -/
def Bitmap.Valid (img : Bitmap) : Prop :=
  ∀ x < img.width, ∀ y < img.height,
    (img.pix x y).1 < 256 ∧ (img.pix x y).2.1 < 256 ∧ (img.pix x y).2.2 < 256

instance (img : Bitmap) : Decidable img.Valid := by
  unfold Bitmap.Valid; infer_instance

/-- Absolute difference of two channel values
(`ImageChops.difference` acts per channel as `abs(a - b)`). -/
def cdiff (a b : ℕ) : ℕ := max a b - min a b

/-- Per-channel absolute difference of two bitmaps at a point: one
sample of the difference image built by `ImageChops.difference`. -/
def diffVal (a b : Bitmap) (c x y : ℕ) : ℕ :=
  cdiff (Pixel.channel (a.pix x y) c) (Pixel.channel (b.pix x y) c)

/-- The coordinate grid of a bitmap. -/
def pixelGrid (a : Bitmap) : Finset (ℕ × ℕ) :=
  Finset.range a.width ×ˢ Finset.range a.height

/-- Bucket `i` of the 768-entry histogram of the difference image
(`diff.histogram()`): the number of samples of channel `i / 256` whose
value is `i % 256`. -/
def histCount (a b : Bitmap) (i : ℕ) : ℕ :=
  ((pixelGrid a).filter (fun p => diffVal a b (i / 256) p.1 p.2 = i % 256)).card

/-- The numerator of the squared RMS as the code computes it:
`sum(value * ((idx % 256) ** 2) for idx, value in enumerate(histogram))`
over the 768 concatenated histogram buckets. -/
def histSumSquares (a b : Bitmap) : ℕ :=
  Finset.sum (Finset.range 768) fun i => histCount a b i * (i % 256) ^ 2

/-- Modelled from the spec: the direct per-pixel sum of squared
per-channel absolute differences ("the direct per-pixel root-mean-square
of the absolute per-channel differences", §9).  This is the comparator
for the refinement claim; the code itself computes `histSumSquares`. -/
def specPixelSumSquares (a b : Bitmap) : ℕ :=
  Finset.sum (pixelGrid a) fun p =>
    Finset.sum (Finset.range 3) fun c => (diffVal a b c p.1 p.2) ^ 2

/-- `has_significant_change(current, previous, threshold)`.

`None` previous returns true at once.  Otherwise the code computes
`rms = sqrt(histSumSquares / total_pixels)` with
`total_pixels = width * height * 3` and returns `rms >= threshold`.
When `total_pixels = 0` the Python division raises `ZeroDivisionError`,
modelled as `none`.  The square root is eliminated from the executable
comparison using `sqrt s ≥ t ↔ t ≤ 0 ∨ t² ≤ s` (see
`hasSignificantChange_eq_sqrt_compare` below, which re-states the
comparison through `Real.sqrt` exactly as the source writes it). -/
def hasSignificantChange (current : Bitmap) (previous : Option Bitmap)
    (threshold : ℚ) : Option Bool :=
  match previous with
  | none => some true
  | some prev =>
    let totalPixels : ℕ := current.width * current.height * 3
    if totalPixels = 0 then none
    else
      some (decide (threshold ≤ 0 ∨
        threshold ^ 2 ≤ (histSumSquares current prev : ℚ) / (totalPixels : ℚ)))

/-- A rectangular screen region `(left, top, right, bottom)`, in pixel
coordinates of the source bitmap (Python ints, hence `ℤ`). -/
structure Region where
  left : ℤ
  top : ℤ
  right : ℤ
  bottom : ℤ
deriving DecidableEq, Repr

/-- The reasons `parse_region_config` / `Region.from_tuple` raise
`ValueError`: a group that does not carry exactly four integers
("Region requires four integers"), a token `int()` cannot parse, and a
degenerate rectangle ("Invalid region dimensions"). -/
inductive ParseError where
  | wrongFieldCount (coords : List ℤ)
  | notAnInteger (part : String)
  | degenerateRectangle (coords : List ℤ)
deriving DecidableEq, Repr

deriving instance DecidableEq for Except

/-- `Region.from_tuple`: unpack four coordinates and reject degenerate
rectangles (`r <= l or b <= t`). -/
def Region.fromTuple (coords : List ℤ) : Except ParseError Region :=
  match coords with
  | [l, t, r, b] =>
      if r ≤ l ∨ b ≤ t then Except.error (ParseError.degenerateRectangle coords)
      else Except.ok ⟨l, t, r, b⟩
  | _ => Except.error (ParseError.wrongFieldCount coords)

/-- Value of a digit run (all characters must be decimal digits). -/
def digitsVal : List Char → Option ℕ
  | [] => some 0
  | c :: cs =>
      if c.isDigit then (digitsVal cs).map (fun n => (c.toNat - 48) * 10 ^ cs.length + n)
      else none

/-- Python `str.strip()`: drop leading and trailing whitespace.
(Structural recursion over the character list, so that concrete parses
evaluate inside the kernel.) -/
def pyStrip (s : String) : String :=
  String.mk (((s.toList.dropWhile Char.isWhitespace).reverse.dropWhile
    Char.isWhitespace).reverse)

/-- Split a character list at every occurrence of a separator, keeping
empty groups — the behaviour of Python `str.split(sep)` for a one-char
separator. -/
def splitOnChar (sep : Char) : List Char → List (List Char)
  | [] => [[]]
  | c :: rest =>
      match splitOnChar sep rest with
      | [] => [[]]
      | g :: gs => if c = sep then [] :: g :: gs else (c :: g) :: gs

/-- Python `s.split(sep)` for a one-character separator. -/
def pySplit (s : String) (sep : Char) : List String :=
  (splitOnChar sep s.toList).map String.mk

/-- Python `str.upper()` (ASCII). -/
def pyUpper (s : String) : String := String.mk (s.toList.map Char.toUpper)

/-- Python `str.lower()` (ASCII). -/
def pyLower (s : String) : String := String.mk (s.toList.map Char.toLower)

/-- Python `int(s)` on a string: surrounding whitespace is ignored, an
optional single sign precedes a non-empty run of decimal digits. -/
def pyInt (s : String) : Option ℤ :=
  match (pyStrip s).toList with
  | [] => none
  | '-' :: rest =>
      if rest = [] then none else (digitsVal rest).map (fun n => -(n : ℤ))
  | '+' :: rest =>
      if rest = [] then none else (digitsVal rest).map (fun n => (n : ℤ))
  | l => (digitsVal l).map (fun n => (n : ℤ))

/-- The comma-separated parts of a group that survive the
`if part.strip()` filter in the list comprehension
`[int(part) for part in chunk.split(",") if part.strip()]`. -/
def tokenParts (chunk : String) : List String :=
  (pySplit chunk ',').filter (fun part => ¬ pyStrip part = "")

/-- Run `int(part)` over the surviving parts left to right; the first
unparsable token raises (`int()`s `ValueError`), modelled as
`notAnInteger`. -/
def tokensFromParts : List String → Except ParseError (List ℤ)
  | [] => Except.ok []
  | p :: ps =>
      match pyInt p with
      | some v => (tokensFromParts ps).map (fun vs => v :: vs)
      | none => Except.error (ParseError.notAnInteger p)

/-- The integer coordinates of one group:
`[int(part) for part in chunk.split(",") if part.strip()]`. -/
def intTokens (chunk : String) : Except ParseError (List ℤ) :=
  tokensFromParts (tokenParts chunk)

/-- Parse one non-blank `;`-group of the redaction spec. -/
def parseChunk (chunk : String) : Except ParseError Region := do
  Region.fromTuple (← intTokens chunk)

/-- The loop body of `parse_region_config`: blank groups are skipped,
the first failing group aborts the whole parse (the Python exception
propagates, so the parse is atomic). -/
def parseChunks : List String → Except ParseError (List Region)
  | [] => Except.ok []
  | c :: cs =>
      if pyStrip c = "" then parseChunks cs
      else do
        let r ← parseChunk c
        let rest ← parseChunks cs
        Except.ok (r :: rest)

/-- `parse_region_config(config)`: `None` or the empty string (falsy in
Python) yield the empty region list; otherwise split on `;` and parse
each group. -/
def parse_region_config (config : Option String) : Except ParseError (List Region) :=
  match config with
  | none => Except.ok []
  | some s => if s = "" then Except.ok [] else parseChunks (pySplit s ';')

/-- PIL `image.crop((l, t, r, b))`: a `(r - l) × (b - t)` bitmap whose
out-of-source samples are black (PIL pads crops past the edges with
zeros). -/
def Bitmap.cropBox (img : Bitmap) (l t r b : ℤ) : Bitmap :=
  { width := (r - l).toNat
    height := (b - t).toNat
    pix := fun i j =>
      let x := l + (i : ℤ)
      let y := t + (j : ℤ)
      if 0 ≤ x ∧ x < (img.width : ℤ) ∧ 0 ≤ y ∧ y < (img.height : ℤ) then
        img.pix x.toNat y.toNat
      else (0, 0, 0) }

/-- PIL `img.paste(src, (l, t, r, b))`: write `src` at offset `(l, t)`,
clipped to the destination bounds (PIL clips pastes whose box leaves the
image) and to the box and source extents. -/
def Bitmap.pasteBox (img src : Bitmap) (l t r b : ℤ) : Bitmap :=
  { img with
    pix := fun x y =>
      if x < img.width ∧ y < img.height ∧
          l ≤ (x : ℤ) ∧ (x : ℤ) < r ∧ t ≤ (y : ℤ) ∧ (y : ℤ) < b ∧
          ((x : ℤ) - l).toNat < src.width ∧ ((y : ℤ) - t).toNat < src.height then
        src.pix ((x : ℤ) - l).toNat ((y : ℤ) - t).toNat
      else img.pix x y }

/-- One iteration of the `redact_regions` loop: crop the region's box,
replace the crop by either its Gaussian blur (`fill_color is None`) or a
flat `Image.new("RGB", crop.size, fill_color)`, and paste it back at the
same box.  The blur itself is the external PIL filter, passed in as
`blurFn`. -/
def redactOne (blurFn : ℕ → Bitmap → Bitmap) (blurRadius : ℕ)
    (fillColor : Option Pixel) (img : Bitmap) (region : Region) : Bitmap :=
  let crop := img.cropBox region.left region.top region.right region.bottom
  let crop :=
    match fillColor with
    | none => blurFn blurRadius crop
    | some color => { width := crop.width, height := crop.height, pix := fun _ _ => color }
  img.pasteBox crop region.left region.top region.right region.bottom

/-- `redact_regions(image, regions, blur_radius, fill_color)`: fold the
per-region crop/transform/paste over the regions in order, starting from
a copy of the input (the input itself is never written to). -/
def redact_regions (blurFn : ℕ → Bitmap → Bitmap) (image : Bitmap)
    (regions : List Region) (blurRadius : ℕ) (fillColor : Option Pixel) : Bitmap :=
  regions.foldl (redactOne blurFn blurRadius fillColor) image

/-- The format `compress_image` actually encodes with: the uppercased
request if it is one of the accepted spellings `JPEG`/`JPG`/`WEBP`,
otherwise the `JPEG` fallback. -/
def chosenFmt (format : String) : String :=
  let fmt := pyUpper format
  if fmt = "JPEG" ∨ fmt = "JPG" ∨ fmt = "WEBP" then fmt else "JPEG"

/-- The media-type string `compress_image` reports:
`image/jpeg` for the JPEG family, `image/webp` for WebP. -/
def chosenMime (format : String) : String :=
  if chosenFmt format = "JPEG" ∨ chosenFmt format = "JPG" then "image/jpeg"
  else "image/webp"

/-- `compress_image(image, format, quality)`: pick the format (with the
JPEG fallback for unsupported values), produce the encoded bytes and the
matching mime string.  The byte encoder itself is PIL's `Image.save`,
passed in abstractly as `encode` (format, quality, bitmap ↦ bytes); the
`optimize`/`method` save flags only influence the bytes and are absorbed
into it. -/
def compress_image (encode : String → ℕ → Bitmap → List ℕ)
    (image : Bitmap) (format : String) (quality : ℕ) : List ℕ × String :=
  (encode (chosenFmt format) quality image, chosenMime format)

/-- Substring test, Python's `needle in haystack`: some suffix of the
haystack starts with the needle (the empty needle always matches). -/
def strContains (haystack needle : String) : Bool :=
  let h := haystack.toList
  (List.range (h.length + 1)).any fun i => needle.toList.isPrefixOf (h.drop i)

/-- `should_skip_window(allowed_keywords)`: an empty keyword list never
skips; an undeterminable title (`None` from the window classifier) never
skips; otherwise skip exactly when no keyword occurs case-insensitively
in the title.  The external title lookup is passed in as the `title`
argument. -/
def should_skip_window (allowedKeywords : List String) (title : Option String) : Bool :=
  if allowedKeywords.isEmpty then false
  else
    match title with
    | none => false
    | some t =>
      let lowered := pyLower t
      !(allowedKeywords.any fun keyword => strContains lowered (pyLower keyword))

/-- The external operations `main.py` delegates to PIL and hashlib:
the LANCZOS thumbnail resampler of `resize_image`, the `Image.save`
byte encoder (format, quality, bitmap ↦ bytes), the Gaussian blur of
`redact_regions`, and the SHA1 hex digest of `compute_digest`. -/
structure Backend where
  resize : Bitmap → Bitmap
  encode : String → ℕ → Bitmap → List ℕ
  blur : ℕ → Bitmap → Bitmap
  digest : List ℕ → String

/-- `encode_frame(image, prefer_webp)`: resize then compress with
quality 80 in WEBP or JPEG. -/
def encode_frame (bk : Backend) (image : Bitmap) (preferWebp : Bool) : List ℕ × String :=
  compress_image bk.encode (bk.resize image) (if preferWebp then "WEBP" else "JPEG") 80

/-- The per-session configuration of the orchestrator. -/
structure PipelineConfig where
  windowKeywords : List String
  regions : List Region
  preferWebp : Bool

/-- The mutable state `main` holds across ticks:
`last_payload_digest`, `last_image` and `last_message`. -/
structure PipelineState where
  lastPayloadDigest : Option String
  lastImage : Option Bitmap
  lastMessage : String

/-- The per-tick behaviour of the external collaborators: the window
classifier's answer, the screen grabber's outcome, and the vision
model's outcome for the analysis call (should the tick reach it). -/
structure TickInput where
  windowTitle : Option String
  captureResult : Except String Bitmap
  analysisResult : Except String String

/-- The screenshot after the redaction stage of `process_frame`:
`redact_regions` runs only when the region list is non-empty, with the
defaults `blur_radius=25` and `fill_color=(0, 0, 0)` (fill mode,
black). -/
def redactedShot (bk : Backend) (cfg : PipelineConfig) (shot : Bitmap) : Bitmap :=
  if cfg.regions = [] then shot
  else redact_regions bk.blur shot cfg.regions 25 (some (0, 0, 0))

/-- The emit stage (end of `process_frame`): an empty analysis message
returns before any state is stored; a changed message is displayed and
stored; the digest and raw frame are then stored unconditionally. -/
def emitStage (st : PipelineState) (shot : Bitmap) (digestHash : String)
    (message : String) : PipelineState × Option String :=
  if message = "" then (st, none)
  else
    let st1 := if message = st.lastMessage then st else { st with lastMessage := message }
    let disp := if message = st.lastMessage then none else some message
    ({ st1 with lastPayloadDigest := some digestHash, lastImage := some shot }, disp)

/-- The analysis stage of `process_frame`: a failed analysis call shows
the error and skips the tick with the state untouched. -/
def analysisStage (inp : TickInput) (st : PipelineState) (shot : Bitmap)
    (digestHash : String) : PipelineState × Option String :=
  match inp.analysisResult with
  | Except.error e => (st, some ("Analysis failed: " ++ e))
  | Except.ok message => emitStage st shot digestHash message

/-- The stage of `process_frame` that runs once a frame was captured and
redacted: change detection (a `ZeroDivisionError` escaping
`has_significant_change` aborts the tick with nothing displayed and no
state touched, like an insignificant frame), then encode, fingerprint,
digest-deduplication, and the analysis call. -/
def captureStage (bk : Backend) (cfg : PipelineConfig) (inp : TickInput)
    (st : PipelineState) (shot : Bitmap) : PipelineState × Option String :=
  match hasSignificantChange shot st.lastImage 8 with
  | some true =>
      let payload := (encode_frame bk shot cfg.preferWebp).1
      let digestHash := bk.digest payload
      if st.lastPayloadDigest = some digestHash then (st, none)
      else analysisStage inp st shot digestHash
  | _ => (st, none)

/-- One tick of `process_frame`, as a transition on `PipelineState`
returning the new state and the text displayed on the overlay (if any):
window filter, capture (a failed capture shows the error and leaves the
state untouched), redaction, then `captureStage`. -/
def process_frame (bk : Backend) (cfg : PipelineConfig) (inp : TickInput)
    (st : PipelineState) : PipelineState × Option String :=
  if should_skip_window cfg.windowKeywords inp.windowTitle then
    (st, some "Waiting for target window…")
  else
    match inp.captureResult with
    | Except.error e => (st, some ("Capture failed: " ++ e))
    | Except.ok screenshot => captureStage bk cfg inp st (redactedShot bk cfg screenshot)

/-- Membership of an in-bounds pixel coordinate in a region's
rectangle. -/
def inRegion (r : Region) (x y : ℕ) : Prop :=
  r.left ≤ (x : ℤ) ∧ (x : ℤ) < r.right ∧ r.top ≤ (y : ℤ) ∧ (y : ℤ) < r.bottom

instance (r : Region) (x y : ℕ) : Decidable (inRegion r x y) := by
  unfold inRegion; infer_instance

/-- A group of the redaction spec that the spec's grammar accepts,
after the amendment: discarding the blank comma-separated parts leaves
exactly four integer tokens that form a non-degenerate rectangle. -/
def GoodChunk (chunk : String) : Prop :=
  pyStrip chunk = "" ∨
  ∃ l t r b : ℤ,
    (tokenParts chunk).map pyInt = [some l, some t, some r, some b] ∧ l < r ∧ t < b

/-- The parse error a group itself justifies: an unparsable surviving
token, a coordinate count other than four, or a degenerate rectangle. -/
def ReasonMatches (chunk : String) : ParseError → Prop
  | ParseError.notAnInteger part => part ∈ tokenParts chunk ∧ pyInt part = none
  | ParseError.wrongFieldCount coords =>
      intTokens chunk = Except.ok coords ∧ coords.length ≠ 4
  | ParseError.degenerateRectangle coords =>
      intTokens chunk = Except.ok coords ∧
        ∃ l t r b : ℤ, coords = [l, t, r, b] ∧ (r ≤ l ∨ b ≤ t)

/-- A 1×1 all-white bitmap. -/
def exWhite1 : Bitmap := ⟨1, 1, fun _ _ => (255, 255, 255)⟩

/-- A 1×1 all-black bitmap. -/
def exBlack1 : Bitmap := ⟨1, 1, fun _ _ => (0, 0, 0)⟩

/-- The 0×0 bitmap (PIL happily builds `Image.new("RGB", (0, 0))`). -/
def exEmpty : Bitmap := ⟨0, 0, fun _ _ => (0, 0, 0)⟩

/-- A 2×2 all-white bitmap. -/
def exWhite2 : Bitmap := ⟨2, 2, fun _ _ => (255, 255, 255)⟩

/-- A stand-in for the external Gaussian blur in concrete evaluations. -/
def exBlur : ℕ → Bitmap → Bitmap := fun _ b => b

/-- A concrete backend for concrete pipeline evaluations. -/
def exBackend : Backend :=
  { resize := fun b => b
    encode := fun _ _ b => [b.width, b.height]
    blur := exBlur
    digest := fun _ => "d0" }

/-- A session configuration with no keywords and no redaction. -/
def exCfg : PipelineConfig := ⟨[], [], false⟩

/-- A session configuration with one window keyword. -/
def exCfgKw : PipelineConfig := ⟨["editor"], [], false⟩

/-- A pipeline state as after some earlier tick: nothing fingerprinted
yet, a previously displayed message. -/
def exSt : PipelineState := ⟨none, none, "old advice"⟩

/-- A tick whose analysis call succeeds with an empty message. -/
def exInpEmptyMsg : TickInput := ⟨none, Except.ok exWhite1, Except.ok ""⟩

/-- A tick whose analysis call succeeds with a fresh message. -/
def exInpOk : TickInput := ⟨none, Except.ok exWhite1, Except.ok "new tip"⟩

/-- A tick whose capture fails. -/
def exInpCapFail : TickInput := ⟨none, Except.error "boom", Except.ok "msg"⟩

/-- A region sticking out of a 2×2 bitmap on the right and bottom. -/
def exRegionOOB : Region := ⟨0, 0, 3, 3⟩

/-! Theorems. -/

/-- The executable comparison inside `hasSignificantChange` agrees with
the source's `rms >= threshold`, with `rms` written through `Real.sqrt`
exactly as the code computes it. -/
theorem hasSignificantChange_eq_sqrt_compare (current prev : Bitmap) (t : ℚ)
    (h : ¬ current.width * current.height * 3 = 0) :
    hasSignificantChange current (some prev) t
      = some (decide ((t : ℝ) ≤ Real.sqrt ((histSumSquares current prev : ℝ)
          / ((current.width * current.height * 3 : ℕ) : ℝ)))) := by
  have hq : (((histSumSquares current prev : ℚ)
      / ((current.width * current.height * 3 : ℕ) : ℚ) : ℚ) : ℝ)
      = (histSumSquares current prev : ℝ)
          / ((current.width * current.height * 3 : ℕ) : ℝ) := by
    push_cast
    ring
  show (if current.width * current.height * 3 = 0 then none
      else some (decide (t ≤ 0 ∨ t ^ 2 ≤ (histSumSquares current prev : ℚ)
        / ((current.width * current.height * 3 : ℕ) : ℚ)))) = _
  rw [if_neg h]
  congr 1
  rw [decide_eq_decide]
  constructor
  · rintro (ht | ht2)
    · exact le_trans (by exact_mod_cast ht) (Real.sqrt_nonneg _)
    · rcases le_or_lt t 0 with ht | ht
      · exact le_trans (by exact_mod_cast ht) (Real.sqrt_nonneg _)
      · refine (Real.le_sqrt' ?_).2 ?_
        · exact_mod_cast ht
        · rw [← hq]
          exact_mod_cast ht2
  · intro hle
    rcases le_or_lt t 0 with ht | ht
    · exact Or.inl ht
    · refine Or.inr ?_
      have h2 := (Real.le_sqrt' (show (0 : ℝ) < (t : ℝ) by exact_mod_cast ht)).1 hle
      rw [← hq] at h2
      exact_mod_cast h2

/-- C5: is_significant_change(x, None, t) is always true: with no
previous frame the first frame is always significant, for every bitmap
(including degenerate ones) and every threshold. -/
theorem first_frame_always_significant (x : Bitmap) (t : ℚ) :
    hasSignificantChange x none t = some true := rfl

/-- Comparing a bitmap with itself leaves every histogram term zero:
every difference sample is 0, so buckets with a nonzero value are empty
and buckets for value 0 are weighted by 0². -/
theorem histSumSquares_self (x : Bitmap) : histSumSquares x x = 0 := by
  unfold histSumSquares
  refine Finset.sum_eq_zero fun i _ => ?_
  rcases Nat.eq_zero_or_pos (i % 256) with h0 | hpos
  · rw [h0]
    simp
  · have hc : histCount x x i = 0 := by
      unfold histCount
      rw [Finset.card_eq_zero, Finset.filter_eq_empty_iff]
      intro p _
      unfold diffVal cdiff
      simp only [max_self, min_self, Nat.sub_self]
      omega
    rw [hc, Nat.zero_mul]

/-- C6 (amended): for every bitmap with at least one pixel and every
positive threshold, comparing the bitmap against itself is not
significant — the RMS difference is exactly 0. -/
theorem self_compare_not_significant (x : Bitmap) (t : ℚ)
    (ht : 0 < t) (hx : 0 < x.width * x.height) :
    hasSignificantChange x (some x) t = some false := by
  have h3 : 0 < x.width * x.height * 3 := by
    have := Nat.mul_pos hx (show 0 < 3 by norm_num)
    omega
  show (if x.width * x.height * 3 = 0 then none
      else some (decide (t ≤ 0 ∨ t ^ 2 ≤ (histSumSquares x x : ℚ)
        / ((x.width * x.height * 3 : ℕ) : ℚ)))) = some false
  rw [if_neg (by omega)]
  have hfalse : ¬ (t ≤ 0 ∨ t ^ 2 ≤ (histSumSquares x x : ℚ)
      / ((x.width * x.height * 3 : ℕ) : ℚ)) := by
    rw [histSumSquares_self]
    rintro (hle | hle)
    · linarith
    · rw [Nat.cast_zero, zero_div] at hle
      nlinarith
  rw [decide_eq_false hfalse]

/-- Witness for `self_compare_not_significant` at a 1×1 bitmap and the
pipeline's default threshold 8. -/
theorem self_compare_not_significant_witness :
    hasSignificantChange exWhite1 (some exWhite1) 8 = some false :=
  self_compare_not_significant exWhite1 8 (by norm_num) (by decide)

/-- Counterexample to C6 as stated: on the 0×0 bitmap the code divides
by `width*height*3 = 0`, raising `ZeroDivisionError` (modelled `none`)
instead of returning false, although the threshold 8 is positive. -/
theorem self_compare_counterexample :
    (0 : ℚ) < 8 ∧ hasSignificantChange exEmpty (some exEmpty) 8 = none :=
  ⟨by norm_num, rfl⟩

/-- The absolute difference of two bounded channel values stays
bounded. -/
theorem cdiff_lt {a b n : ℕ} (ha : a < n) (hb : b < n) : cdiff a b < n := by
  unfold cdiff
  rcases Nat.le_total a b with h | h
  · rw [Nat.max_eq_right h, Nat.min_eq_left h]
    omega
  · rw [Nat.max_eq_left h, Nat.min_eq_right h]
    omega

/-- Every channel of an 8-bit pixel is below 256, whichever channel
index selects it. -/
theorem Pixel.channel_lt {p : Pixel} (h1 : p.1 < 256) (h2 : p.2.1 < 256)
    (h3 : p.2.2 < 256) (c : ℕ) : Pixel.channel p c < 256 := by
  unfold Pixel.channel
  split_ifs
  · exact h1
  · exact h2
  · exact h3

/-- Difference samples of two valid equal-sized bitmaps are below 256,
so they land inside the histogram's 256 buckets per channel. -/
theorem diffVal_lt {a b : Bitmap} (ha : a.Valid) (hb : b.Valid)
    (hw : b.width = a.width) (hh : b.height = a.height)
    {x y : ℕ} (hx : x < a.width) (hy : y < a.height) (c : ℕ) :
    diffVal a b c x y < 256 := by
  have hA := ha x hx y hy
  have hB := hb x (by omega) y (by omega)
  exact cdiff_lt (Pixel.channel_lt hA.1 hA.2.1 hA.2.2 c)
    (Pixel.channel_lt hB.1 hB.2.1 hB.2.2 c)

/-- A sum over the 768 histogram buckets splits into the three
channel-major blocks of 256 buckets each. -/
theorem sum_range768 (f : ℕ → ℕ) :
    Finset.sum (Finset.range 768) f
      = Finset.sum (Finset.range 256) (fun v => f v)
        + Finset.sum (Finset.range 256) (fun v => f (256 + v))
        + Finset.sum (Finset.range 256) (fun v => f (512 + v)) := by
  have h2 : Finset.sum (Finset.Ico 0 512) f + Finset.sum (Finset.Ico 512 768) f
      = Finset.sum (Finset.Ico 0 768) f :=
    Finset.sum_Ico_consecutive f (by norm_num) (by norm_num)
  have h1 : Finset.sum (Finset.Ico 0 256) f + Finset.sum (Finset.Ico 256 512) f
      = Finset.sum (Finset.Ico 0 512) f :=
    Finset.sum_Ico_consecutive f (by norm_num) (by norm_num)
  calc Finset.sum (Finset.range 768) f
      = Finset.sum (Finset.Ico 0 768) f := by rw [Finset.range_eq_Ico]
    _ = Finset.sum (Finset.Ico 0 256) f + Finset.sum (Finset.Ico 256 512) f
          + Finset.sum (Finset.Ico 512 768) f := by rw [h1, h2]
    _ = _ := by
        rw [Finset.sum_Ico_eq_sum_range f 0 256, Finset.sum_Ico_eq_sum_range f 256 512,
          Finset.sum_Ico_eq_sum_range f 512 768]
        norm_num

/-- One channel block of the histogram sum counts exactly the squared
difference samples of that channel: fiberwise counting over the value
buckets. -/
theorem channel_sum (a b : Bitmap) (c : ℕ)
    (hbound : ∀ p ∈ pixelGrid a, diffVal a b c p.1 p.2 < 256) :
    (Finset.sum (Finset.range 256) fun v => histCount a b (256 * c + v) * v ^ 2)
      = Finset.sum (pixelGrid a) fun p => (diffVal a b c p.1 p.2) ^ 2 := by
  have hmap : ∀ p ∈ pixelGrid a, diffVal a b c p.1 p.2 ∈ Finset.range 256 :=
    fun p hp => Finset.mem_range.2 (hbound p hp)
  have key := Finset.sum_fiberwise_of_maps_to hmap
    (fun p => (diffVal a b c p.1 p.2) ^ 2)
  rw [← key]
  refine Finset.sum_congr rfl fun v hv => ?_
  have hv' : v < 256 := Finset.mem_range.1 hv
  have hdiv : (256 * c + v) / 256 = c := by
    rw [Nat.add_comm, Nat.add_mul_div_left v c (by norm_num), Nat.div_eq_of_lt hv',
      Nat.zero_add]
  have hmod : (256 * c + v) % 256 = v := by
    rw [Nat.add_comm, Nat.add_mul_mod_self_left, Nat.mod_eq_of_lt hv']
  have hcount : histCount a b (256 * c + v)
      = ((pixelGrid a).filter fun p => diffVal a b c p.1 p.2 = v).card := by
    unfold histCount
    rw [hdiv, hmod]
  rw [hcount]
  calc ((pixelGrid a).filter fun p => diffVal a b c p.1 p.2 = v).card * v ^ 2
      = Finset.sum ((pixelGrid a).filter fun p => diffVal a b c p.1 p.2 = v)
          (fun _ => v ^ 2) := by
        rw [Finset.sum_const, smul_eq_mul]
    _ = _ := by
        refine Finset.sum_congr rfl fun p hp => ?_
        rw [(Finset.mem_filter.1 hp).2]

/-- The code's histogram formula and the spec's direct per-pixel sum of
squared differences agree on valid equal-sized bitmaps. -/
theorem histSumSquares_eq_specPixelSumSquares (a b : Bitmap)
    (hw : b.width = a.width) (hh : b.height = a.height)
    (ha : a.Valid) (hb : b.Valid) :
    histSumSquares a b = specPixelSumSquares a b := by
  have hbound : ∀ c : ℕ, ∀ p ∈ pixelGrid a, diffVal a b c p.1 p.2 < 256 := by
    intro c p hp
    have hp' := Finset.mem_product.1 hp
    exact diffVal_lt ha hb hw hh (Finset.mem_range.1 hp'.1)
      (Finset.mem_range.1 hp'.2) c
  have g0 : (Finset.sum (Finset.range 256) fun v => histCount a b v * (v % 256) ^ 2)
      = Finset.sum (Finset.range 256) fun v => histCount a b (256 * 0 + v) * v ^ 2 := by
    refine Finset.sum_congr rfl fun v hv => ?_
    have hv' := Finset.mem_range.1 hv
    have e1 : v % 256 = v := by omega
    have e2 : 256 * 0 + v = v := by omega
    rw [e1, e2]
  have g1 : (Finset.sum (Finset.range 256) fun v =>
        histCount a b (256 + v) * ((256 + v) % 256) ^ 2)
      = Finset.sum (Finset.range 256) fun v => histCount a b (256 * 1 + v) * v ^ 2 := by
    refine Finset.sum_congr rfl fun v hv => ?_
    have hv' := Finset.mem_range.1 hv
    have e1 : (256 + v) % 256 = v := by omega
    have e2 : 256 * 1 + v = 256 + v := by omega
    rw [e1, e2]
  have g2 : (Finset.sum (Finset.range 256) fun v =>
        histCount a b (512 + v) * ((512 + v) % 256) ^ 2)
      = Finset.sum (Finset.range 256) fun v => histCount a b (256 * 2 + v) * v ^ 2 := by
    refine Finset.sum_congr rfl fun v hv => ?_
    have hv' := Finset.mem_range.1 hv
    have e1 : (512 + v) % 256 = v := by omega
    have e2 : 256 * 2 + v = 512 + v := by omega
    rw [e1, e2]
  unfold histSumSquares
  rw [sum_range768, g0, g1, g2, channel_sum a b 0 (hbound 0),
    channel_sum a b 1 (hbound 1), channel_sum a b 2 (hbound 2)]
  unfold specPixelSumSquares
  rw [← Finset.sum_add_distrib, ← Finset.sum_add_distrib]
  refine Finset.sum_congr rfl fun p _ => ?_
  rw [Finset.sum_range_succ, Finset.sum_range_succ, Finset.sum_range_one]

/-- C4: for equal-sized valid RGB bitmaps, the histogram-based RMS the
change detector computes equals the direct per-pixel root-mean-square of
the absolute per-channel differences. -/
theorem hist_rms_eq_pixel_rms (a b : Bitmap)
    (hw : b.width = a.width) (hh : b.height = a.height)
    (ha : a.Valid) (hb : b.Valid) :
    Real.sqrt ((histSumSquares a b : ℝ)
        / ((a.width * a.height * 3 : ℕ) : ℝ))
      = Real.sqrt ((specPixelSumSquares a b : ℝ)
        / ((a.width * a.height * 3 : ℕ) : ℝ)) := by
  rw [histSumSquares_eq_specPixelSumSquares a b hw hh ha hb]

/-- Witness for `hist_rms_eq_pixel_rms` at concrete 1×1 bitmaps. -/
theorem hist_rms_eq_pixel_rms_witness :
    Real.sqrt ((histSumSquares exWhite1 exBlack1 : ℝ)
        / ((exWhite1.width * exWhite1.height * 3 : ℕ) : ℝ))
      = Real.sqrt ((specPixelSumSquares exWhite1 exBlack1 : ℝ)
        / ((exWhite1.width * exWhite1.height * 3 : ℕ) : ℝ)) :=
  hist_rms_eq_pixel_rms exWhite1 exBlack1 rfl rfl (by decide) (by decide)

/-- Pasting never writes outside the target box. -/
theorem pasteBox_pix_outside (img src : Bitmap) (l t r b : ℤ) (x y : ℕ)
    (h : ¬ (l ≤ (x : ℤ) ∧ (x : ℤ) < r ∧ t ≤ (y : ℤ) ∧ (y : ℤ) < b)) :
    (Bitmap.pasteBox img src l t r b).pix x y = img.pix x y := by
  unfold Bitmap.pasteBox
  dsimp only
  rw [if_neg]
  intro hC
  exact h ⟨hC.2.2.1, hC.2.2.2.1, hC.2.2.2.2.1, hC.2.2.2.2.2.1⟩

/-- One redaction step leaves the bitmap dimensions unchanged. -/
theorem redactOne_width (blurFn : ℕ → Bitmap → Bitmap) (radius : ℕ)
    (fill : Option Pixel) (img : Bitmap) (r : Region) :
    (redactOne blurFn radius fill img r).width = img.width := rfl

/-- One redaction step leaves the bitmap height unchanged. -/
theorem redactOne_height (blurFn : ℕ → Bitmap → Bitmap) (radius : ℕ)
    (fill : Option Pixel) (img : Bitmap) (r : Region) :
    (redactOne blurFn radius fill img r).height = img.height := rfl

/-- One redaction step never touches a pixel outside its region, in
either blur or fill mode. -/
theorem redactOne_pix_outside (blurFn : ℕ → Bitmap → Bitmap) (radius : ℕ)
    (fill : Option Pixel) (img : Bitmap) (r : Region) (x y : ℕ)
    (h : ¬ inRegion r x y) :
    (redactOne blurFn radius fill img r).pix x y = img.pix x y := by
  unfold redactOne
  exact pasteBox_pix_outside img _ r.left r.top r.right r.bottom x y h

/-- C9: redaction is pure (it returns a fresh bitmap built from the
input, which the embedding keeps immutable) and every pixel strictly
outside all configured regions is unchanged, in either mode and with
any blur; the dimensions are preserved as well. -/
theorem redact_preserves_outside (blurFn : ℕ → Bitmap → Bitmap)
    (image : Bitmap) (regions : List Region) (radius : ℕ)
    (fill : Option Pixel) (x y : ℕ)
    (h : ∀ r ∈ regions, ¬ inRegion r x y) :
    (redact_regions blurFn image regions radius fill).pix x y = image.pix x y
      ∧ (redact_regions blurFn image regions radius fill).width = image.width
      ∧ (redact_regions blurFn image regions radius fill).height = image.height := by
  unfold redact_regions
  induction regions generalizing image with
  | nil => exact ⟨rfl, rfl, rfl⟩
  | cons r rs ih =>
      have h1 : ¬ inRegion r x y := h r (List.mem_cons_self r rs)
      have hrest : ∀ r' ∈ rs, ¬ inRegion r' x y :=
        fun r' hr' => h r' (List.mem_cons_of_mem r hr')
      simp only [List.foldl_cons]
      obtain ⟨hp, hwi, hhe⟩ := ih (redactOne blurFn radius fill image r) hrest
      refine ⟨?_, ?_, ?_⟩
      · rw [hp, redactOne_pix_outside blurFn radius fill image r x y h1]
      · rw [hwi, redactOne_width]
      · rw [hhe, redactOne_height]

/-- Witness for `redact_preserves_outside`: the pixel at (1,1) of a 2×2
bitmap survives redaction of the top-left unit square. -/
theorem redact_preserves_outside_witness :
    (redact_regions exBlur exWhite2 [⟨0, 0, 1, 1⟩] 25 (some (0, 0, 0))).pix 1 1
        = exWhite2.pix 1 1
      ∧ (redact_regions exBlur exWhite2 [⟨0, 0, 1, 1⟩] 25 (some (0, 0, 0))).width
        = exWhite2.width
      ∧ (redact_regions exBlur exWhite2 [⟨0, 0, 1, 1⟩] 25 (some (0, 0, 0))).height
        = exWhite2.height :=
  redact_preserves_outside exBlur exWhite2 [⟨0, 0, 1, 1⟩] 25 (some (0, 0, 0)) 1 1
    (by decide)

/-- One fill-mode redaction step paints exactly the in-bounds part of
the region with the fill color — a region leaving the bitmap is clamped
by the crop/paste pair, with no failure. -/
theorem redactOne_fill_pix (blurFn : ℕ → Bitmap → Bitmap) (radius : ℕ)
    (color : Pixel) (img : Bitmap) (r : Region) (x y : ℕ)
    (hx : x < img.width) (hy : y < img.height) :
    (redactOne blurFn radius (some color) img r).pix x y
      = if inRegion r x y then color else img.pix x y := by
  by_cases hin : inRegion r x y
  · rw [if_pos hin]
    obtain ⟨hl, hr, ht, hb⟩ := hin
    unfold redactOne Bitmap.pasteBox
    dsimp only
    rw [if_pos]
    refine ⟨hx, hy, hl, hr, ht, hb, ?_, ?_⟩
    · show ((x : ℤ) - r.left).toNat < (Bitmap.cropBox img r.left r.top r.right r.bottom).width
      unfold Bitmap.cropBox
      dsimp only
      omega
    · show ((y : ℤ) - r.top).toNat < (Bitmap.cropBox img r.left r.top r.right r.bottom).height
      unfold Bitmap.cropBox
      dsimp only
      omega
  · rw [if_neg hin]
    exact redactOne_pix_outside blurFn radius (some color) img r x y hin

/-- C2 (amended): fill-mode redaction is total — regions outside the
bitmap bounds are silently clamped, never reported: every in-bounds
pixel covered by some configured region receives the fill color, and
every other pixel is unchanged. -/
theorem redact_fill_clamps (blurFn : ℕ → Bitmap → Bitmap) (radius : ℕ)
    (color : Pixel) (image : Bitmap) (regions : List Region) (x y : ℕ)
    (hx : x < image.width) (hy : y < image.height) :
    (redact_regions blurFn image regions radius (some color)).pix x y
      = if ∃ r ∈ regions, inRegion r x y then color else image.pix x y := by
  unfold redact_regions
  induction regions generalizing image with
  | nil => simp
  | cons r rs ih =>
      simp only [List.foldl_cons]
      have hx' : x < (redactOne blurFn radius (some color) image r).width := by
        rw [redactOne_width]
        exact hx
      have hy' : y < (redactOne blurFn radius (some color) image r).height := by
        rw [redactOne_height]
        exact hy
      rw [ih (redactOne blurFn radius (some color) image r) hx' hy',
        redactOne_fill_pix blurFn radius color image r x y hx hy]
      by_cases h1 : ∃ r' ∈ rs, inRegion r' x y
      · obtain ⟨r', hr', hin'⟩ := h1
        rw [if_pos ⟨r', hr', hin'⟩, if_pos ⟨r', List.mem_cons_of_mem r hr', hin'⟩]
      · rw [if_neg h1]
        by_cases h2 : inRegion r x y
        · rw [if_pos h2, if_pos ⟨r, List.mem_cons_self r rs, h2⟩]
        · rw [if_neg h2, if_neg]
          rintro ⟨r', hr', hin'⟩
          rcases List.mem_cons.1 hr' with rfl | hmem
          · exact h2 hin'
          · exact h1 ⟨r', hmem, hin'⟩

/-- Witness for `redact_fill_clamps`: the out-of-bounds region
`(0,0,3,3)` on a 2×2 white bitmap blackens the covered pixel (0,0). -/
theorem redact_fill_clamps_witness :
    (redact_regions exBlur exWhite2 [exRegionOOB] 25 (some (0, 0, 0))).pix 0 0
      = if ∃ r ∈ [exRegionOOB], inRegion r 0 0 then (0, 0, 0) else exWhite2.pix 0 0 :=
  redact_fill_clamps exBlur 25 (0, 0, 0) exWhite2 [exRegionOOB] 0 0
    (by decide) (by decide)

/-- Counterexample to C2 as stated: redacting a 2×2 bitmap with the
out-of-bounds region `(0,0,3,3)` does not fail with any error — PIL's
crop pads and paste clips, so the operation succeeds, silently clamps
the region to the bitmap, and fills all four pixels. -/
theorem redact_out_of_bounds_counterexample :
    (redact_regions exBlur exWhite2 [exRegionOOB] 25 (some (0, 0, 0))).width = 2
      ∧ (redact_regions exBlur exWhite2 [exRegionOOB] 25 (some (0, 0, 0))).height = 2
      ∧ (redact_regions exBlur exWhite2 [exRegionOOB] 25 (some (0, 0, 0))).pix 0 0 = (0, 0, 0)
      ∧ (redact_regions exBlur exWhite2 [exRegionOOB] 25 (some (0, 0, 0))).pix 1 0 = (0, 0, 0)
      ∧ (redact_regions exBlur exWhite2 [exRegionOOB] 25 (some (0, 0, 0))).pix 0 1 = (0, 0, 0)
      ∧ (redact_regions exBlur exWhite2 [exRegionOOB] 25 (some (0, 0, 0))).pix 1 1 = (0, 0, 0) := by
  refine ⟨rfl, rfl, ?_, ?_, ?_, ?_⟩ <;> decide

/-- C7: compression always succeeds and is characterized by the chosen
format: the bytes are produced with `chosenFmt format`, which is one of
the accepted spellings `JPEG`/`JPG`/`WEBP` of the two lossy formats and
falls back to `JPEG` whenever the uppercased request is none of them,
and the reported media type matches the format actually used
(`image/webp` exactly for WebP, `image/jpeg` for the JPEG family). -/
theorem compress_image_fallback_and_mime (encode : String → ℕ → Bitmap → List ℕ)
    (image : Bitmap) (format : String) (quality : ℕ) :
    compress_image encode image format quality
        = (encode (chosenFmt format) quality image, chosenMime format)
      ∧ (chosenFmt format = "JPEG" ∨ chosenFmt format = "JPG"
          ∨ chosenFmt format = "WEBP")
      ∧ (¬ (pyUpper format = "JPEG" ∨ pyUpper format = "JPG"
          ∨ pyUpper format = "WEBP") → chosenFmt format = "JPEG")
      ∧ chosenMime format
          = (if chosenFmt format = "WEBP" then "image/webp" else "image/jpeg") := by
  refine ⟨rfl, ?_, ?_, ?_⟩
  · unfold chosenFmt
    by_cases h : pyUpper format = "JPEG" ∨ pyUpper format = "JPG"
        ∨ pyUpper format = "WEBP"
    · rw [if_pos h]
      exact h
    · rw [if_neg h]
      exact Or.inl rfl
  · intro h
    unfold chosenFmt
    rw [if_neg h]
  · unfold chosenMime
    by_cases h : chosenFmt format = "JPEG" ∨ chosenFmt format = "JPG"
    · rw [if_pos h, if_neg]
      rcases h with h | h <;> rw [h] <;> decide
    · rw [if_neg h, if_pos]
      unfold chosenFmt at h ⊢
      by_cases hs : pyUpper format = "JPEG" ∨ pyUpper format = "JPG"
          ∨ pyUpper format = "WEBP"
      · rw [if_pos hs] at h ⊢
        rcases hs with hs | hs | hs <;> rw [hs] at h ⊢
        · exact absurd (Or.inl rfl) h
        · exact absurd (Or.inr rfl) h
      · rw [if_neg hs] at h
        exact absurd (Or.inl rfl) h

/-- Witness for `compress_image_fallback_and_mime` at the unsupported
format request "png". -/
theorem compress_image_fallback_and_mime_witness :
    compress_image exBackend.encode exWhite1 "png" 80
        = (exBackend.encode (chosenFmt "png") 80 exWhite1, chosenMime "png")
      ∧ (chosenFmt "png" = "JPEG" ∨ chosenFmt "png" = "JPG"
          ∨ chosenFmt "png" = "WEBP")
      ∧ (¬ (pyUpper "png" = "JPEG" ∨ pyUpper "png" = "JPG"
          ∨ pyUpper "png" = "WEBP") → chosenFmt "png" = "JPEG")
      ∧ chosenMime "png"
          = (if chosenFmt "png" = "WEBP" then "image/webp" else "image/jpeg") :=
  compress_image_fallback_and_mime exBackend.encode exWhite1 "png" 80

/-- C8: a tick whose capture fails shows the capture error and leaves
the pipeline state exactly as it was. -/
theorem capture_failure_preserves_state (bk : Backend) (cfg : PipelineConfig)
    (inp : TickInput) (st : PipelineState) (e : String)
    (hskip : should_skip_window cfg.windowKeywords inp.windowTitle = false)
    (hcap : inp.captureResult = Except.error e) :
    process_frame bk cfg inp st = (st, some ("Capture failed: " ++ e)) := by
  unfold process_frame
  rw [hskip, hcap]
  rfl

/-- Witness for `capture_failure_preserves_state` on a concrete failed
capture. -/
theorem capture_failure_preserves_state_witness :
    process_frame exBackend exCfg exInpCapFail exSt
      = (exSt, some ("Capture failed: " ++ "boom")) :=
  capture_failure_preserves_state exBackend exCfg exInpCapFail exSt "boom" rfl rfl

/-- C10: with a non-empty keyword list, a tick whose window title lookup
returns nothing is not skipped by the window filter: the pipeline
proceeds to the capture stage exactly as if the filter had matched. -/
theorem none_title_proceeds_to_capture (bk : Backend) (cfg : PipelineConfig)
    (inp : TickInput) (st : PipelineState)
    (hkw : cfg.windowKeywords ≠ [])
    (ht : inp.windowTitle = none) :
    should_skip_window cfg.windowKeywords inp.windowTitle = false
      ∧ process_frame bk cfg inp st
        = (match inp.captureResult with
           | Except.error e => (st, some ("Capture failed: " ++ e))
           | Except.ok screenshot =>
               captureStage bk cfg inp st (redactedShot bk cfg screenshot)) := by
  have hfalse : should_skip_window cfg.windowKeywords inp.windowTitle = false := by
    unfold should_skip_window
    rw [ht]
    split
    · rfl
    · rfl
  refine ⟨hfalse, ?_⟩
  unfold process_frame
  rw [hfalse]
  rfl

/-- Witness for `none_title_proceeds_to_capture`: a configured keyword,
no title, a failed capture. -/
theorem none_title_proceeds_to_capture_witness :
    should_skip_window exCfgKw.windowKeywords exInpCapFail.windowTitle = false
      ∧ process_frame exBackend exCfgKw exInpCapFail exSt
        = (match exInpCapFail.captureResult with
           | Except.error e => (exSt, some ("Capture failed: " ++ e))
           | Except.ok screenshot =>
               captureStage exBackend exCfgKw exInpCapFail exSt
                 (redactedShot exBackend exCfgKw screenshot)) :=
  none_title_proceeds_to_capture exBackend exCfgKw exInpCapFail exSt
    (by decide) rfl

/-- C1 (amended): on every tick whose analysis call succeeds with a
non-empty message, the pipeline stores the new raw (redacted) frame and
the new digest into the state, regardless of whether the message equals
the previously stored one; ticks whose analysis returns an empty
message, however, store nothing (see the counterexample). -/
theorem analysis_success_nonempty_stores_state (bk : Backend)
    (cfg : PipelineConfig) (inp : TickInput) (st : PipelineState)
    (shot0 : Bitmap) (msg : String)
    (hskip : should_skip_window cfg.windowKeywords inp.windowTitle = false)
    (hcap : inp.captureResult = Except.ok shot0)
    (hchange : hasSignificantChange (redactedShot bk cfg shot0) st.lastImage 8
      = some true)
    (hdigest : ¬ st.lastPayloadDigest
      = some (bk.digest (encode_frame bk (redactedShot bk cfg shot0) cfg.preferWebp).1))
    (hana : inp.analysisResult = Except.ok msg)
    (hmsg : ¬ msg = "") :
    (process_frame bk cfg inp st).1.lastPayloadDigest
        = some (bk.digest (encode_frame bk (redactedShot bk cfg shot0) cfg.preferWebp).1)
      ∧ (process_frame bk cfg inp st).1.lastImage
        = some (redactedShot bk cfg shot0) := by
  have hred : process_frame bk cfg inp st
      = captureStage bk cfg inp st (redactedShot bk cfg shot0) := by
    unfold process_frame
    rw [hskip, hcap]
    rfl
  rw [hred]
  unfold captureStage
  rw [hchange]
  dsimp only
  rw [if_neg hdigest]
  unfold analysisStage
  rw [hana]
  unfold emitStage
  dsimp only
  rw [if_neg hmsg]
  by_cases hsame : msg = st.lastMessage
  · rw [if_pos hsame]
    exact ⟨rfl, rfl⟩
  · rw [if_neg hsame]
    exact ⟨rfl, rfl⟩

/-- Witness for `analysis_success_nonempty_stores_state` on a concrete
successful tick. -/
theorem analysis_success_stores_state_witness :
    (process_frame exBackend exCfg exInpOk exSt).1.lastPayloadDigest
        = some (exBackend.digest
            (encode_frame exBackend (redactedShot exBackend exCfg exWhite1)
              exCfg.preferWebp).1)
      ∧ (process_frame exBackend exCfg exInpOk exSt).1.lastImage
        = some (redactedShot exBackend exCfg exWhite1) :=
  analysis_success_nonempty_stores_state exBackend exCfg exInpOk exSt exWhite1
    "new tip" rfl rfl rfl (by decide) rfl (by decide)

/-- Counterexample to C1 as stated: a tick whose analysis call succeeds
but returns the empty message stores nothing — the code returns before
the digest/frame updates, so `last_payload_digest` stays `none` and
`last_image` stays `none` instead of the new frame and digest. -/
theorem empty_message_stores_nothing_counterexample :
    exInpEmptyMsg.analysisResult = Except.ok ""
      ∧ process_frame exBackend exCfg exInpEmptyMsg exSt = (exSt, none)
      ∧ exSt.lastPayloadDigest = none
      ∧ exSt.lastImage = none :=
  ⟨rfl, rfl, rfl, rfl⟩

/-- A failed token run names the whole group's error. -/
theorem parseChunk_eq_error {c : String} {e : ParseError}
    (hi : intTokens c = Except.error e) : parseChunk c = Except.error e := by
  unfold parseChunk
  rw [hi]
  rfl

/-- A successful token run hands the coordinates to `Region.fromTuple`. -/
theorem parseChunk_eq_fromTuple {c : String} {coords : List ℤ}
    (hi : intTokens c = Except.ok coords) :
    parseChunk c = Region.fromTuple coords := by
  unfold parseChunk
  rw [hi]
  rfl

/-- The token run succeeds exactly when every surviving part parses as
an integer, and then returns those integers in order. -/
theorem tokensFromParts_ok_iff {ps : List String} {vs : List ℤ} :
    tokensFromParts ps = Except.ok vs ↔ ps.map pyInt = vs.map some := by
  induction ps generalizing vs with
  | nil =>
      constructor
      · intro h
        cases vs with
        | nil => rfl
        | cons v vs' => simp [tokensFromParts] at h
      · intro h
        cases vs with
        | nil => rfl
        | cons v vs' => simp at h
  | cons p ps ih =>
      cases hp : pyInt p with
      | none =>
          constructor
          · intro h
            rw [show tokensFromParts (p :: ps)
                = Except.error (ParseError.notAnInteger p) from by
              simp [tokensFromParts, hp]] at h
            exact absurd h (by simp)
          · intro h
            cases vs with
            | nil => simp [hp] at h
            | cons v vs' =>
                simp [hp] at h
      | some v =>
          have hstep : tokensFromParts (p :: ps)
              = (tokensFromParts ps).map (fun vs => v :: vs) := by
            simp [tokensFromParts, hp]
          rw [hstep]
          constructor
          · intro h
            cases hr : tokensFromParts ps with
            | error e => rw [hr] at h; exact absurd h (by simp [Except.map])
            | ok ws =>
                rw [hr] at h
                simp only [Except.map, Except.ok.injEq] at h
                cases vs with
                | nil => simp at h
                | cons v0 vs' =>
                    simp only [List.cons.injEq] at h
                    obtain ⟨hv1, hv2⟩ := h
                    subst hv1
                    subst hv2
                    simp [hp, ih.1 hr]
          · intro h
            cases vs with
            | nil => simp [hp] at h
            | cons v0 vs' =>
                simp only [List.map_cons, List.cons.injEq, hp] at h
                obtain ⟨hv, hrest⟩ := h
                have hv' : v = v0 := by
                  injection hv
                subst hv'
                rw [ih.2 hrest]
                rfl

/-- A failed token run is caused by a surviving part `int()` rejects. -/
theorem tokensFromParts_error {ps : List String} {e : ParseError}
    (h : tokensFromParts ps = Except.error e) :
    ∃ p ∈ ps, pyInt p = none ∧ e = ParseError.notAnInteger p := by
  revert h
  induction ps generalizing e with
  | nil => intro h; exact absurd h (by simp [tokensFromParts])
  | cons p ps ih =>
      intro h
      cases hp : pyInt p with
      | none =>
          rw [show tokensFromParts (p :: ps)
              = Except.error (ParseError.notAnInteger p) from by
            simp [tokensFromParts, hp]] at h
          injection h with h'
          exact ⟨p, List.mem_cons_self p ps, hp, h'.symm⟩
      | some v =>
          rw [show tokensFromParts (p :: ps)
              = (tokensFromParts ps).map (fun vs => v :: vs) from by
            simp [tokensFromParts, hp]] at h
          cases hr : tokensFromParts ps with
          | error e2 =>
              rw [hr] at h
              simp only [Except.map] at h
              injection h with h'
              subst h'
              obtain ⟨q, hq, hq2, hq3⟩ := ih hr
              exact ⟨q, List.mem_cons_of_mem p hq, hq2, hq3⟩
          | ok ws =>
              rw [hr] at h
              exact absurd h (by simp [Except.map])

/-- A list of `some`s equals a four-element `some` list exactly when the
underlying lists match. -/
theorem map_some_eq_four {xs : List ℤ} {a b c d : ℤ} :
    xs.map some = [some a, some b, some c, some d] ↔ xs = [a, b, c, d] := by
  constructor
  · intro h
    rcases xs with _ | ⟨x1, _ | ⟨x2, _ | ⟨x3, _ | ⟨x4, _ | ⟨x5, tl⟩⟩⟩⟩⟩ <;> simp_all
  · rintro rfl
    rfl

/-- `Region.fromTuple` succeeds exactly on four-element non-degenerate
coordinate lists. -/
theorem fromTuple_ok_iff (coords : List ℤ) :
    (∃ reg, Region.fromTuple coords = Except.ok reg) ↔
      ∃ l t r b : ℤ, coords = [l, t, r, b] ∧ l < r ∧ t < b := by
  rcases coords with _ | ⟨a1, _ | ⟨a2, _ | ⟨a3, _ | ⟨a4, _ | ⟨a5, tl⟩⟩⟩⟩⟩
  · simp [Region.fromTuple]
  · simp [Region.fromTuple]
  · simp [Region.fromTuple]
  · simp [Region.fromTuple]
  · by_cases hd : a3 ≤ a1 ∨ a4 ≤ a2
    · rw [show Region.fromTuple [a1, a2, a3, a4]
          = Except.error (ParseError.degenerateRectangle [a1, a2, a3, a4]) from
        if_pos hd]
      constructor
      · rintro ⟨reg, hreg⟩
        exact absurd hreg (by simp)
      · rintro ⟨l, t, r, b, heq, h1, h2⟩
        simp only [List.cons.injEq, and_true] at heq
        obtain ⟨e1, e2, e3, e4⟩ := heq
        subst e1; subst e2; subst e3; subst e4
        omega
    · rw [show Region.fromTuple [a1, a2, a3, a4]
          = Except.ok ⟨a1, a2, a3, a4⟩ from if_neg hd]
      constructor
      · intro
        exact ⟨a1, a2, a3, a4, rfl, by omega, by omega⟩
      · intro
        exact ⟨⟨a1, a2, a3, a4⟩, rfl⟩
  · simp [Region.fromTuple]

/-- A failure of `Region.fromTuple` is a wrong field count or a
degenerate rectangle, and the error says which. -/
theorem fromTuple_error_reason {coords : List ℤ} {e : ParseError}
    (h : Region.fromTuple coords = Except.error e) :
    (e = ParseError.wrongFieldCount coords ∧ coords.length ≠ 4)
      ∨ (∃ l t r b : ℤ, coords = [l, t, r, b] ∧ (r ≤ l ∨ b ≤ t)
          ∧ e = ParseError.degenerateRectangle coords) := by
  rcases coords with _ | ⟨a1, _ | ⟨a2, _ | ⟨a3, _ | ⟨a4, _ | ⟨a5, tl⟩⟩⟩⟩⟩
  · left
    refine ⟨?_, by simp⟩
    injection h with h'
    exact h'.symm
  · left
    refine ⟨?_, by simp⟩
    injection h with h'
    exact h'.symm
  · left
    refine ⟨?_, by simp⟩
    injection h with h'
    exact h'.symm
  · left
    refine ⟨?_, by simp⟩
    injection h with h'
    exact h'.symm
  · right
    by_cases hd : a3 ≤ a1 ∨ a4 ≤ a2
    · rw [show Region.fromTuple [a1, a2, a3, a4]
          = Except.error (ParseError.degenerateRectangle [a1, a2, a3, a4]) from
        if_pos hd] at h
      injection h with h'
      exact ⟨a1, a2, a3, a4, rfl, hd, h'.symm⟩
    · rw [show Region.fromTuple [a1, a2, a3, a4]
          = Except.ok ⟨a1, a2, a3, a4⟩ from if_neg hd] at h
      exact absurd h (by simp)
  · left
    refine ⟨?_, by simp⟩
    injection h with h'
    exact h'.symm

/-- A group parses exactly when its surviving parts are four integer
tokens forming a non-degenerate rectangle. -/
theorem parseChunk_ok_iff (c : String) :
    (∃ reg, parseChunk c = Except.ok reg) ↔
      ∃ l t r b : ℤ, (tokenParts c).map pyInt = [some l, some t, some r, some b]
        ∧ l < r ∧ t < b := by
  cases hi : intTokens c with
  | error e =>
      rw [parseChunk_eq_error hi]
      constructor
      · rintro ⟨reg, hreg⟩
        exact absurd hreg (by simp)
      · rintro ⟨l, t, r, b, heq, -, -⟩
        have : tokensFromParts (tokenParts c) = Except.ok [l, t, r, b] :=
          tokensFromParts_ok_iff.2 (by rw [heq]; rfl)
        rw [show intTokens c = tokensFromParts (tokenParts c) from rfl, this] at hi
        exact absurd hi (by simp)
  | ok coords =>
      rw [parseChunk_eq_fromTuple hi]
      have hmap : (tokenParts c).map pyInt = coords.map some :=
        tokensFromParts_ok_iff.1 hi
      rw [fromTuple_ok_iff]
      constructor
      · rintro ⟨l, t, r, b, rfl, h1, h2⟩
        exact ⟨l, t, r, b, by rw [hmap]; rfl, h1, h2⟩
      · rintro ⟨l, t, r, b, heq, h1, h2⟩
        rw [hmap] at heq
        exact ⟨l, t, r, b, map_some_eq_four.1 heq, h1, h2⟩

/-- A group's parse failure is justified by the group itself. -/
theorem parseChunk_error_reason {c : String} {e : ParseError}
    (h : parseChunk c = Except.error e) : ReasonMatches c e := by
  cases hi : intTokens c with
  | error e2 =>
      rw [parseChunk_eq_error hi] at h
      injection h with h'
      subst h'
      obtain ⟨p, hp, hp2, hp3⟩ := tokensFromParts_error hi
      subst hp3
      exact ⟨hp, hp2⟩
  | ok coords =>
      rw [parseChunk_eq_fromTuple hi] at h
      rcases fromTuple_error_reason h with ⟨he, hlen⟩ | ⟨l, t, r, b, heq, hd, he⟩
      · subst he
        exact ⟨hi, hlen⟩
      · subst he
        exact ⟨hi, l, t, r, b, heq, hd⟩

/-- A blank group is skipped by the parse loop. -/
theorem parseChunks_cons_blank {c : String} {cs : List String}
    (h : pyStrip c = "") : parseChunks (c :: cs) = parseChunks cs := by
  simp only [parseChunks]
  rw [if_pos h]

/-- A failing group aborts the parse loop with its error. -/
theorem parseChunks_cons_chunk_error {c : String} {cs : List String}
    {e : ParseError} (h : ¬ pyStrip c = "") (hp : parseChunk c = Except.error e) :
    parseChunks (c :: cs) = Except.error e := by
  simp only [parseChunks]
  rw [if_neg h, hp]
  rfl

/-- A failure later in the loop propagates unchanged. -/
theorem parseChunks_cons_rest_error {c : String} {cs : List String}
    {reg : Region} {e : ParseError} (h : ¬ pyStrip c = "")
    (hp : parseChunk c = Except.ok reg) (hr : parseChunks cs = Except.error e) :
    parseChunks (c :: cs) = Except.error e := by
  simp only [parseChunks]
  rw [if_neg h, hp, hr]
  rfl

/-- A successful group is prepended to the successfully parsed rest. -/
theorem parseChunks_cons_ok {c : String} {cs : List String}
    {reg : Region} {rs : List Region} (h : ¬ pyStrip c = "")
    (hp : parseChunk c = Except.ok reg) (hr : parseChunks cs = Except.ok rs) :
    parseChunks (c :: cs) = Except.ok (reg :: rs) := by
  simp only [parseChunks]
  rw [if_neg h, hp, hr]
  rfl

/-- The parse loop succeeds exactly when every group is blank or parses. -/
theorem parseChunks_ok_iff (cs : List String) :
    (∃ rs, parseChunks cs = Except.ok rs)
      ↔ ∀ c ∈ cs, pyStrip c = "" ∨ ∃ reg, parseChunk c = Except.ok reg := by
  induction cs with
  | nil => simp [parseChunks]
  | cons c cs ih =>
      simp only [List.forall_mem_cons]
      by_cases h : pyStrip c = ""
      · rw [parseChunks_cons_blank h]
        simp [h, ih]
      · cases hp : parseChunk c with
        | error e =>
            constructor
            · rintro ⟨rs, hrs⟩
              rw [parseChunks_cons_chunk_error h hp] at hrs
              exact absurd hrs (by simp)
            · rintro ⟨hc, -⟩
              rcases hc with hc | ⟨reg, hreg⟩
              · exact absurd hc h
              · exact absurd hreg (by simp)
        | ok reg =>
            cases hr : parseChunks cs with
            | error e =>
                constructor
                · rintro ⟨rs, hrs⟩
                  rw [parseChunks_cons_rest_error h hp hr] at hrs
                  exact absurd hrs (by simp)
                · rintro ⟨-, hrest⟩
                  obtain ⟨rs, hrs⟩ := ih.2 hrest
                  rw [hr] at hrs
                  exact absurd hrs (by simp)
            | ok rs =>
                constructor
                · intro
                  exact ⟨Or.inr ⟨reg, rfl⟩, ih.1 ⟨rs, hr⟩⟩
                · intro
                  exact ⟨reg :: rs, parseChunks_cons_ok h hp hr⟩

/-- A parse-loop failure comes from a concrete non-blank failing group. -/
theorem parseChunks_error {cs : List String} {e : ParseError}
    (h : parseChunks cs = Except.error e) :
    ∃ c ∈ cs, ¬ pyStrip c = "" ∧ parseChunk c = Except.error e := by
  induction cs with
  | nil => exact absurd h (by simp [parseChunks])
  | cons c cs ih =>
      by_cases hb : pyStrip c = ""
      · rw [parseChunks_cons_blank hb] at h
        obtain ⟨c', hc', h1, h2⟩ := ih h
        exact ⟨c', List.mem_cons_of_mem c hc', h1, h2⟩
      · cases hp : parseChunk c with
        | error e2 =>
            rw [parseChunks_cons_chunk_error hb hp] at h
            injection h with h'
            subst h'
            exact ⟨c, List.mem_cons_self c cs, hb, hp⟩
        | ok reg =>
            cases hr : parseChunks cs with
            | error e2 =>
                rw [parseChunks_cons_rest_error hb hp hr] at h
                injection h with h'
                subst h'
                obtain ⟨c', hc', h1, h2⟩ := ih hr
                exact ⟨c', List.mem_cons_of_mem c hc', h1, h2⟩
            | ok rs =>
                rw [parseChunks_cons_ok hb hp hr] at h
                exact absurd h (by simp)

/-- The amended grammar test for one group coincides with that group
parsing. -/
theorem GoodChunk_iff (c : String) :
    GoodChunk c ↔ (pyStrip c = "" ∨ ∃ reg, parseChunk c = Except.ok reg) := by
  unfold GoodChunk
  rw [parseChunk_ok_iff]

/-- C3 (amended): parsing succeeds exactly when every `;`-group is
blank or, after discarding blank comma-separated parts, carries exactly
four integer tokens forming a non-degenerate rectangle; and a failed
parse names an offending group's own reason (wrong field count,
unparsable token, or degenerate rectangle). -/
theorem parse_characterization (s : String) :
    ((∃ rs, parse_region_config (some s) = Except.ok rs)
        ↔ ∀ c ∈ pySplit s ';', GoodChunk c)
      ∧ (∀ e, parse_region_config (some s) = Except.error e →
          ∃ c ∈ pySplit s ';', ¬ GoodChunk c ∧ parseChunk c = Except.error e
            ∧ ReasonMatches c e) := by
  constructor
  · by_cases hs : s = ""
    · subst hs
      constructor
      · intro _ c hc
        rw [show pySplit "" ';' = [""] from rfl] at hc
        have hc' := List.mem_singleton.1 hc
        subst hc'
        exact Or.inl rfl
      · intro _
        exact ⟨[], rfl⟩
    · rw [show parse_region_config (some s) = parseChunks (pySplit s ';') from by
        unfold parse_region_config; dsimp only; rw [if_neg hs]]
      rw [parseChunks_ok_iff]
      constructor
      · intro H c hc
        exact (GoodChunk_iff c).2 (H c hc)
      · intro H c hc
        exact (GoodChunk_iff c).1 (H c hc)
  · intro e he
    by_cases hs : s = ""
    · subst hs
      exact absurd he (by simp [parse_region_config])
    · rw [show parse_region_config (some s) = parseChunks (pySplit s ';') from by
        unfold parse_region_config; dsimp only; rw [if_neg hs]] at he
      obtain ⟨c, hc, hb, hperr⟩ := parseChunks_error he
      refine ⟨c, hc, ?_, hperr, parseChunk_error_reason hperr⟩
      intro hgood
      rcases (GoodChunk_iff c).1 hgood with h1 | ⟨reg, hreg⟩
      · exact hb h1
      · rw [hperr] at hreg
        exact absurd hreg (by simp)

/-- Witness for `parse_characterization`: the spec string "1,2,3" fails
with a wrong-field-count error traced to its single group. -/
theorem parse_characterization_witness :
    ∃ c ∈ pySplit "1,2,3" ';', ¬ GoodChunk c
      ∧ parseChunk c = Except.error (ParseError.wrongFieldCount [1, 2, 3])
      ∧ ReasonMatches c (ParseError.wrongFieldCount [1, 2, 3]) :=
  (parse_characterization "1,2,3").2 (ParseError.wrongFieldCount [1, 2, 3])
    (by decide)

/-- Counterexample to C3 as stated: the group "1,2,3,4," splits on ","
into five fields, one of which is empty and not an integer token, yet
the parse succeeds because the code's list comprehension filters blank
parts out before `int()` runs. -/
theorem parse_trailing_comma_counterexample :
    parse_region_config (some "1,2,3,4,") = Except.ok [⟨1, 2, 3, 4⟩]
      ∧ (pySplit "1,2,3,4," ',').length = 5
      ∧ pyInt "" = none := by
  refine ⟨by decide, by decide, rfl⟩
